import Mathlib

/-!
Verification of the go-cryptomkt client library.

The development shallowly embeds the relevant parts of the repository:

* `V1` — the current client: `src/client.go` together with the type file
  `src/unnamed/part_001` (string-backed enums, `FlexInt`, `Time`).
* `V0` — the older type file `src/unnamed/part_000` (int-backed enums with
  map lookup tables and custom JSON marshalling).

Go byte strings are modelled as `List Nat` (each element a byte value),
Go `string` values as Lean `String`, Go `int`/`int64` as `Int` with the
explicit 64-bit range checks the standard library performs, and the HTTP
transport as an oracle giving the outcome of each successive call to
`http.Client.Do`.
-/

/-! ## Bytes, hex, UTF-8 -/

/-- UTF-8 encoding of a single character, as Go produces for `[]byte(s)`. -/
def utf8Enc (c : Char) : List Nat :=
  let n := c.toNat
  if n < 0x80 then [n]
  else if n < 0x800 then [0xC0 ||| (n >>> 6), 0x80 ||| (n &&& 0x3F)]
  else if n < 0x10000 then
    [0xE0 ||| (n >>> 12), 0x80 ||| ((n >>> 6) &&& 0x3F), 0x80 ||| (n &&& 0x3F)]
  else
    [0xF0 ||| (n >>> 18), 0x80 ||| ((n >>> 12) &&& 0x3F),
     0x80 ||| ((n >>> 6) &&& 0x3F), 0x80 ||| (n &&& 0x3F)]

/-- The bytes of a Go string (`[]byte(s)` — UTF-8). -/
def strBytes (s : String) : List Nat := s.data.flatMap utf8Enc

/-- Lowercase hex digit for a nibble. -/
def hexDigit (n : Nat) : Char :=
  if n < 10 then Char.ofNat (48 + n) else Char.ofNat (87 + n)

/-- Lowercase hex encoding of a byte list, as `hex.EncodeToString` produces. -/
def hexStr (bs : List Nat) : String :=
  String.mk (bs.flatMap fun b => [hexDigit (b / 16), hexDigit (b % 16)])

/-! ## SHA-512 / SHA-384 (FIPS 180-4) and HMAC (RFC 2104)

`crypto/sha512.New384` and `crypto/hmac` from the Go standard library,
embedded over `Nat` with explicit reduction mod `2^64`. -/

def w64 : Nat := 2 ^ 64

def rotr64 (x n : Nat) : Nat := ((x >>> n) ||| (x <<< (64 - n))) % w64

def shaCh (x y z : Nat) : Nat := (x &&& y) ^^^ ((x ^^^ (w64 - 1)) &&& z)

def shaMaj (x y z : Nat) : Nat := (x &&& y) ^^^ (x &&& z) ^^^ (y &&& z)

def bigSigma0 (x : Nat) : Nat := rotr64 x 28 ^^^ rotr64 x 34 ^^^ rotr64 x 39

def bigSigma1 (x : Nat) : Nat := rotr64 x 14 ^^^ rotr64 x 18 ^^^ rotr64 x 41

def smallSigma0 (x : Nat) : Nat := rotr64 x 1 ^^^ rotr64 x 8 ^^^ (x >>> 7)

def smallSigma1 (x : Nat) : Nat := rotr64 x 19 ^^^ rotr64 x 61 ^^^ (x >>> 6)

/-- The 80 SHA-512 round constants (fractional parts of the cube roots of
the first 80 primes). -/
def shaK : List Nat := [
  4794697086780616226, 8158064640168781261, 13096744586834688815, 16840607885511220156,
  4131703408338449720, 6480981068601479193, 10538285296894168987, 12329834152419229976,
  15566598209576043074, 1334009975649890238, 2608012711638119052, 6128411473006802146,
  8268148722764581231, 9286055187155687089, 11230858885718282805, 13951009754708518548,
  16472876342353939154, 17275323862435702243, 1135362057144423861, 2597628984639134821,
  3308224258029322869, 5365058923640841347, 6679025012923562964, 8573033837759648693,
  10970295158949994411, 12119686244451234320, 12683024718118986047, 13788192230050041572,
  14330467153632333762, 15395433587784984357, 489312712824947311, 1452737877330783856,
  2861767655752347644, 3322285676063803686, 5560940570517711597, 5996557281743188959,
  7280758554555802590, 8532644243296465576, 9350256976987008742, 10552545826968843579,
  11727347734174303076, 12113106623233404929, 14000437183269869457, 14369950271660146224,
  15101387698204529176, 15463397548674623760, 17586052441742319658, 1182934255886127544,
  1847814050463011016, 2177327727835720531, 2830643537854262169, 3796741975233480872,
  4115178125766777443, 5681478168544905931, 6601373596472566643, 7507060721942968483,
  8399075790359081724, 8693463985226723168, 9568029438360202098, 10144078919501101548,
  10430055236837252648, 11840083180663258601, 13761210420658862357, 14299343276471374635,
  14566680578165727644, 15097957966210449927, 16922976911328602910, 17689382322260857208,
  500013540394364858, 748580250866718886, 1242879168328830382, 1977374033974150939,
  2944078676154940804, 3659926193048069267, 4368137639120453308, 4836135668995329356,
  5532061633213252278, 6448918945643986474, 6902733635092675308, 7801388544844847127]

/-- SHA-384 initial hash value (fractional parts of the square roots of
the ninth through sixteenth primes). -/
def iv384 : List Nat := [
  14680500436340154072, 7105036623409894663, 10473403895298186519, 1526699215303891257,
  7436329637833083697, 10282925794625328401, 15784041429090275239, 5167115440072839076]

/-- SHA-512 initial hash value (fractional parts of the square roots of
the first eight primes). -/
def iv512 : List Nat := [
  7640891576956012808, 13503953896175478587, 4354685564936845355, 11912009170470909681,
  5840696475078001361, 11170449401992604703, 2270897969802886507, 6620516959819538809]

/-- Big-endian byte rendering of `n` in `k` bytes. -/
def beBytes (k n : Nat) : List Nat :=
  match k with
  | 0 => []
  | k + 1 => beBytes k (n / 256) ++ [n % 256]

/-- Merkle–Damgård padding for SHA-512: append `0x80`, zeros, and the
128-bit big-endian bit length, to a multiple of 128 bytes. -/
def padMsg (m : List Nat) : List Nat :=
  let L := m.length
  let z := (128 - ((L + 17) % 128)) % 128
  m ++ [0x80] ++ List.replicate z 0 ++ beBytes 16 ((L * 8) % 2 ^ 128)

/-- Group bytes into big-endian 64-bit words. -/
def toWords : List Nat → List Nat
  | b1 :: b2 :: b3 :: b4 :: b5 :: b6 :: b7 :: b8 :: rest =>
    (((((((b1 * 256 + b2) * 256 + b3) * 256 + b4) * 256 + b5) * 256 + b6) * 256 + b7)
      * 256 + b8) :: toWords rest
  | _ => []

/-- Group a word list into 16-word blocks. -/
def blocks16 : List Nat → List (List Nat)
  | w1 :: w2 :: w3 :: w4 :: w5 :: w6 :: w7 :: w8 ::
    w9 :: w10 :: w11 :: w12 :: w13 :: w14 :: w15 :: w16 :: rest =>
    [w1, w2, w3, w4, w5, w6, w7, w8, w9, w10, w11, w12, w13, w14, w15, w16]
      :: blocks16 rest
  | _ => []

/-- The SHA-512 message schedule: extend 16 words to 80. -/
def schedule (block : List Nat) : List Nat :=
  (List.range 64).foldl
    (fun ws i =>
      ws ++ [(smallSigma1 (ws.getD (i + 14) 0) + ws.getD (i + 9) 0 +
              smallSigma0 (ws.getD (i + 1) 0) + ws.getD i 0) % w64])
    block

/-- Working state of the SHA-512 compression function. -/
structure H8 where
  a : Nat
  b : Nat
  c : Nat
  d : Nat
  e : Nat
  f : Nat
  g : Nat
  h : Nat
deriving DecidableEq

def H8.ofList : List Nat → H8
  | [a, b, c, d, e, f, g, h] => ⟨a, b, c, d, e, f, g, h⟩
  | _ => ⟨0, 0, 0, 0, 0, 0, 0, 0⟩

def H8.toList (s : H8) : List Nat := [s.a, s.b, s.c, s.d, s.e, s.f, s.g, s.h]

/-- One SHA-512 round. -/
def shaRound (st : H8) (kw : Nat × Nat) : H8 :=
  let t1 := (st.h + bigSigma1 st.e + shaCh st.e st.f st.g + kw.1 + kw.2) % w64
  let t2 := (bigSigma0 st.a + shaMaj st.a st.b st.c) % w64
  ⟨(t1 + t2) % w64, st.a, st.b, st.c, (st.d + t1) % w64, st.e, st.f, st.g⟩

/-- The SHA-512 compression function on one 16-word block. -/
def compress (H : List Nat) (block : List Nat) : List Nat :=
  let st := (shaK.zip (schedule block)).foldl shaRound (H8.ofList H)
  (H.zip st.toList).map fun p => (p.1 + p.2) % w64

/-- The SHA-512 core applied to a byte message from a given initial value. -/
def shaCore (iv : List Nat) (m : List Nat) : List Nat :=
  (blocks16 (toWords (padMsg m))).foldl compress iv

/-- SHA-384 of a byte message, as `sha512.New384` computes: the SHA-512
core with the SHA-384 initial value, truncated to the first six words. -/
def sha384 (m : List Nat) : List Nat :=
  ((shaCore iv384 m).take 6).flatMap (beBytes 8)

/-- HMAC-SHA384 (RFC 2104; block size 128 bytes), as `hmac.New(sha512.New384, key)`
computes. -/
def hmacSha384 (key msg : List Nat) : List Nat :=
  let k0 := if 128 < key.length then sha384 key else key
  let k0 := k0 ++ List.replicate (128 - k0.length) 0
  sha384 ((k0.map (· ^^^ 0x5c)) ++ sha384 ((k0.map (· ^^^ 0x36)) ++ msg))

/-! ## URL query encoding (net/url) -/

/-- Bytes `url.QueryEscape` leaves unescaped: alphanumerics and `-._~`. -/
def urlUnreserved (b : Nat) : Bool :=
  (48 ≤ b && b ≤ 57) || (65 ≤ b && b ≤ 90) || (97 ≤ b && b ≤ 122) ||
  b == 45 || b == 46 || b == 95 || b == 126

def hexDigitUpper (n : Nat) : Char :=
  if n < 10 then Char.ofNat (48 + n) else Char.ofNat (55 + n)

/-- `url.QueryEscape`: unreserved bytes kept, space becomes `+`, every other
byte is percent-encoded with uppercase hex. -/
def queryEscape (s : String) : String :=
  String.mk ((strBytes s).flatMap fun b =>
    if urlUnreserved b then [Char.ofNat b]
    else if b == 32 then ['+']
    else ['%', hexDigitUpper (b / 16), hexDigitUpper (b % 16)])

def insertLe (le : α → α → Bool) (a : α) : List α → List α
  | [] => [a]
  | b :: bs => if le a b then a :: b :: bs else b :: insertLe le a bs

/-- Insertion sort by a boolean comparison, standing for `sort.Strings` on
the keys in `url.Values.Encode`. -/
def sortLe (le : α → α → Bool) : List α → List α
  | [] => []
  | a :: as => insertLe le a (sortLe le as)

/-- `url.Values` is `map[string][]string`. A Go map is unordered; the entry
order of this list records one admissible iteration order of the map, which
the language does not fix. -/
def Values : Type := List (String × List String)

/-- `url.Values.Add`: append the value to the slice stored under the key,
creating the entry if absent. -/
def addValue : Values → String → String → Values
  | [], k, v => [(k, [v])]
  | (k', l) :: rest, k, v =>
    if k' = k then (k', l ++ [v]) :: rest else (k', l) :: addValue rest k v

/-- Build a `url.Values` by `Add`-ing each pair in turn, as `formURL` and
`post` do when copying their `map[string]string` argument. -/
def buildValues (adds : List (String × String)) : Values :=
  adds.foldl (fun vs kv => addValue vs kv.1 kv.2) []

/-- Byte-wise lexicographic order on byte lists — how `sort.Strings`
compares Go strings. -/
def bytesLe : List Nat → List Nat → Bool
  | [], _ => true
  | _ :: _, [] => false
  | a :: as, b :: bs =>
    if a < b then true else if b < a then false else bytesLe as bs

def keyLe (a b : String × List String) : Bool :=
  bytesLe (strBytes a.1) (strBytes b.1)

/-- The `k=v` components of `url.Values.Encode`, keys sorted. -/
def encodeParts (vs : Values) : List String :=
  (sortLe keyLe vs).flatMap fun kv =>
    kv.2.map fun v => queryEscape kv.1 ++ "=" ++ queryEscape v

/-- `url.Values.Encode`: `k=v` pairs joined by `&`, keys sorted. -/
def encode (vs : Values) : String :=
  String.intercalate "&" (encodeParts vs)

/-! ## The client (src/client.go) -/

namespace V1

def apiURL : String := "https://api.cryptomkt.com/"

def version : String := "v1/"

def limit : Nat := 100

/-- The client credentials (src/unnamed/part_001:11-15). The embedded
`http.Client` carries no per-call state that the claims depend on; the
transport itself is passed to each call as an oracle. -/
structure Client where
  key : String
  secret : String
deriving DecidableEq

/-- Does `url.Parse` accept the URL: it rejects ASCII control characters and
invalid percent escapes. (`URL.String` re-encoding of unusual path bytes is
not modelled; the paths this client uses are plain ASCII names.) -/
def isHexB (b : Nat) : Bool :=
  (48 ≤ b && b ≤ 57) || (65 ≤ b && b ≤ 70) || (97 ≤ b && b ≤ 102)

def validEscapes : List Nat → Bool
  | [] => true
  | 37 :: h1 :: h2 :: rest => isHexB h1 && isHexB h2 && validEscapes rest
  | 37 :: _ => false
  | _ :: rest => validEscapes rest

def parseOK (s : String) : Bool :=
  ((strBytes s).all fun b => 32 ≤ b && b ≠ 127) && validEscapes (strBytes s)

/-- Embedding of `Client.formURL` (src/client.go:69-83): parse the initial
URL, set its raw query to the encoded parameter map, and render it. -/
def formURL (initialURL : String) (paramsMap : List (String × String)) :
    Except String String :=
  if parseOK initialURL then
    .ok (if paramsMap.isEmpty then initialURL
         else initialURL ++ "?" ++ encode (buildValues paramsMap))
  else .error "Parse error"

/-- Concatenation of all form field values, in the form's iteration order —
the body contribution `formHeaders` appends for POST. -/
def concatVals (vs : Values) : List Nat :=
  ((vs.flatMap fun kv => kv.2).map strBytes).flatten

/-- Embedding of `Client.formHeaders` (src/client.go:85-105). `ts` is the
value `time.Now().Unix()` read at signing time, `hdrs` the headers already
on the request, `data` is `nil` for GET and the form values for POST.
The signed byte string is built exactly as the Go code builds `body`:
the timestamp, `"/"`, the version and the path, then (for POST) each value
of each form entry appended in iteration order. -/
def formHeaders (c : Client) (hdrs : List (String × String)) (path : String)
    (data : Option Values) (ts : Int) : List (String × String) :=
  let hdrs := hdrs ++ [("X-MKT-APIKEY", c.key)]
  let body0 := strBytes (toString ts) ++ strBytes "/" ++ strBytes version ++ strBytes path
  let hdrs := match data with
    | none => hdrs
    | some vs =>
      hdrs ++ [("Content-Type", "application/x-www-form-urlencoded"),
               ("Content-Length", toString (encode vs).length)]
  let body := match data with
    | none => body0
    | some vs => vs.foldl (fun acc kv => kv.2.foldl (fun a v => a ++ strBytes v) acc) body0
  hdrs ++ [("X-MKT-SIGNATURE", hexStr (hmacSha384 (strBytes c.secret) body)),
           ("X-MKT-TIMESTAMP", toString ts)]

/-- An HTTP response as the transport returns it. -/
structure HttpResp where
  statusCode : Nat
  body : List Nat
deriving DecidableEq

/-- Outcome of one `http.Client.Do` call: a transport error or a response
(of any status). -/
inductive DoResult where
  | fail (msg : String)
  | resp (r : HttpResp)
deriving DecidableEq

/-- The transport oracle: the outcome of the `n`-th call to `Do`. -/
def Transport : Type := Nat → DoResult

/-- The outgoing request handed to `Do`. -/
structure Request where
  method : String
  url : String
  headers : List (String × String)
  body : List Nat
deriving DecidableEq

deriving instance DecidableEq for Except

/-- What one call of `get`/`post` did: the request handed to `Do` (if any),
the returned pair, and how many times `Do` was invoked. -/
structure CallResult where
  sent : Option Request
  result : Except String DoResult
  attempts : Nat
deriving DecidableEq

/-- Embedding of `Client.get` (src/client.go:107-128): build the request URL
from the parameter map, build the GET request, add the auth headers when
`auth` is set, then call `c.client.Do` exactly once and return its outcome. -/
def Client.get (c : Client) (path : String) (params : List (String × String))
    (auth : Bool) (ts : Int) (t : Transport) : CallResult :=
  match formURL (apiURL ++ version ++ path) params with
  | .error e => { sent := none, result := .error e, attempts := 0 }
  | .ok requestURL =>
    let req : Request := { method := "GET", url := requestURL, headers := [], body := [] }
    let req := if auth then { req with headers := formHeaders c [] path none ts } else req
    { sent := some req, result := .ok (t 0), attempts := 1 }

/-- Embedding of `Client.post` (src/client.go:130-153): build the request URL
(no query), copy the data map into a `url.Values`, build the POST request
with the encoded payload as body, sign it, then call `Do` exactly once. -/
def Client.post (c : Client) (path : String) (data : List (String × String))
    (ts : Int) (t : Transport) : CallResult :=
  match formURL (apiURL ++ version ++ path) [] with
  | .error e => { sent := none, result := .error e, attempts := 0 }
  | .ok requestURL =>
    let payload := buildValues data
    let req : Request := { method := "POST", url := requestURL,
                           headers := formHeaders c [] path (some payload) ts,
                           body := strBytes (encode payload) }
    { sent := some req, result := .ok (t 0), attempts := 1 }

/-- Embedding of `Client.Book` (src/client.go:193-208): the params map it
passes to `get`, with the package-level `limit` constant. -/
def Client.Book (c : Client) (market ot : String) (page : Int)
    (ts : Int) (t : Transport) : CallResult :=
  c.get "book" [("market", market), ("type", ot), ("page", toString page),
                ("limit", toString limit)] false ts t

/-- Embedding of `Client.Trades` (src/client.go:220-236). -/
def Client.Trades (c : Client) (market start e : String) (page : Int)
    (ts : Int) (t : Transport) : CallResult :=
  c.get "trades" [("market", market), ("start", start), ("end", e),
                  ("page", toString page), ("limit", toString limit)] false ts t

/-- Embedding of `Client.ActiveOrders` (src/client.go:239-254). -/
def Client.ActiveOrders (c : Client) (market : String) (page : Int)
    (ts : Int) (t : Transport) : CallResult :=
  c.get "orders/active" [("market", market), ("page", toString page),
                         ("limit", toString limit)] true ts t

/-- Embedding of `Client.ExecutedOrders` (src/client.go:257-272). -/
def Client.ExecutedOrders (c : Client) (market : String) (page : Int)
    (ts : Int) (t : Transport) : CallResult :=
  c.get "orders/executed" [("market", market), ("page", toString page),
                           ("limit", toString limit)] true ts t

/-- First header with the given name, as `http.Header.Get` reads it. -/
def headerGet (hs : List (String × String)) (k : String) : Option String :=
  (hs.find? fun p => p.1 == k).map fun p => p.2

end V1


/-! ## JSON decoding layer (encoding/json, strconv) -/

/-- Outcome of a Go method that can also panic at runtime. -/
inductive GoResult (α : Type) where
  | crash
  | err (msg : String)
  | ok (a : α)
deriving DecidableEq

def isDigitB (b : Nat) : Bool := 48 ≤ b && b ≤ 57

/-- Value of a big-endian decimal digit-byte list. -/
def digitsVal (bs : List Nat) : Nat := bs.foldl (fun a b => a * 10 + (b - 48)) 0

def hexVal (b : Nat) : Option Nat :=
  if 48 ≤ b ∧ b ≤ 57 then some (b - 48)
  else if 65 ≤ b ∧ b ≤ 70 then some (b - 55)
  else if 97 ≤ b ∧ b ≤ 102 then some (b - 87)
  else none

/-- The single-character JSON escapes. -/
def escChar (b : Nat) : Option Char :=
  if b = 34 then some '"'
  else if b = 92 then some '\\'
  else if b = 47 then some '/'
  else if b = 98 then some (Char.ofNat 8)
  else if b = 102 then some (Char.ofNat 12)
  else if b = 110 then some '\n'
  else if b = 114 then some '\r'
  else if b = 116 then some '\t'
  else none

/-- Scan a JSON string body after the opening quote: decoded characters plus
the input remaining after the closing quote. Raw control bytes are rejected,
as `encoding/json` rejects them. Multi-byte UTF-8 input is not needed by
this client and is rejected. -/
def jstrBody : List Nat → Option (List Char × List Nat)
  | [] => none
  | b :: rest =>
    if b = 34 then some ([], rest)
    else if b = 92 then
      match rest with
      | [] => none
      | e :: rest2 =>
        if e = 117 then
          match rest2 with
          | h1 :: h2 :: h3 :: h4 :: rest3 =>
            match hexVal h1, hexVal h2, hexVal h3, hexVal h4 with
            | some v1, some v2, some v3, some v4 =>
              match jstrBody rest3 with
              | none => none
              | some (cs, r) =>
                some (Char.ofNat (((v1 * 16 + v2) * 16 + v3) * 16 + v4) :: cs, r)
            | _, _, _, _ => none
          | _ => none
        else
          match escChar e with
          | none => none
          | some c =>
            match jstrBody rest2 with
            | none => none
            | some (cs, r) => some (c :: cs, r)
    else if 32 ≤ b ∧ b < 128 then
      match jstrBody rest with
      | none => none
      | some (cs, r) => some (Char.ofNat b :: cs, r)
    else none

/-- `json.Unmarshal(b, &s)` for a `string` target. -/
def unmarshalString (b : List Nat) : Except String String :=
  match b with
  | [] => .error "unexpected end of JSON input"
  | b0 :: rest =>
    if b0 = 34 then
      match jstrBody rest with
      | some (cs, []) => .ok (String.mk cs)
      | some (_, _ :: _) => .error "invalid character after top-level value"
      | none => .error "invalid string literal"
    else .error "cannot unmarshal value into string"

/-- Split a leading sign byte off a numeral; `allowPlus` also accepts `+`
(`strconv` does, the JSON number grammar does not). -/
def splitSign (bs : List Nat) (allowPlus : Bool) : Bool × List Nat :=
  match bs with
  | [] => (false, [])
  | b :: rest =>
    if b = 45 then (true, rest)
    else if allowPlus ∧ b = 43 then (false, rest)
    else (false, b :: rest)

/-- `json.Unmarshal(b, (*int)(fi))` for an `int` target on a 64-bit platform:
JSON `null` leaves the target unchanged and succeeds; an integer literal in
the signed 64-bit range is stored; any other input (fractions, exponents,
malformed or out-of-range literals, other JSON kinds) is an error. -/
def unmarshalInt (old : Int) (b : List Nat) : Except String Int :=
  if b = strBytes "null" then .ok old
  else
    let p := splitSign b false
    let ds := p.2
    if ds ≠ [] ∧ (∀ d ∈ ds, isDigitB d) ∧ (ds.head? = some 48 → ds = [48]) then
      let v : Int := if p.1 then -(digitsVal ds : Int) else (digitsVal ds : Int)
      if -(2 ^ 63) ≤ v ∧ v ≤ 2 ^ 63 - 1 then .ok v
      else .error "number out of range"
    else .error "invalid number"

/-- `strconv.Atoi`: optional sign, one or more decimal digits, and the
signed 64-bit range check (`int` is 64 bits wide here). -/
def Atoi (s : String) : Except String Int :=
  let p := splitSign (strBytes s) true
  let ds := p.2
  if ds ≠ [] ∧ (∀ d ∈ ds, isDigitB d) then
    let v : Int := if p.1 then -(digitsVal ds : Int) else (digitsVal ds : Int)
    if -(2 ^ 63) ≤ v ∧ v ≤ 2 ^ 63 - 1 then .ok v
    else .error "value out of range"
  else .error "invalid syntax"

namespace V1

/-- Embedding of `FlexInt.UnmarshalJSON` (src/unnamed/part_001:21-35).
`old` is the receiver's value before the call; the unguarded index `b[0]`
panics on an empty slice, modelled as `crash`. When `strconv.Atoi` fails the
method returns nil without writing the receiver, so the old value stands. -/
def FlexInt.unmarshalJSON (old : Int) (b : List Nat) : GoResult Int :=
  match b with
  | [] => .crash
  | b0 :: _ =>
    if b0 ≠ 34 then
      match unmarshalInt old b with
      | .error e => .err e
      | .ok v => .ok v
    else
      match unmarshalString b with
      | .error e => .err e
      | .ok s =>
        match Atoi s with
        | .error _ => .ok old
        | .ok i => .ok i

/-- A parsed wall-clock instant, the fields `time.Parse` fills in. -/
structure GoTime where
  year : Int
  month : Nat
  day : Nat
  hour : Nat
  minute : Nat
  second : Nat
  nsec : Nat
deriving DecidableEq

def monthNames : List String :=
  ["Jan", "Feb", "Mar", "Apr", "May", "Jun", "Jul", "Aug", "Sep", "Oct", "Nov", "Dec"]

def lowerB (b : Nat) : Nat := if 65 ≤ b ∧ b ≤ 90 then b + 32 else b

/-- Case-insensitive three-letter month lookup, as `time`'s `lookup` matches
month names. Returns the month number 1-12. -/
def monthIdx3 (b1 b2 b3 : Nat) : Option Nat :=
  ((List.range 12).find? fun i =>
    (strBytes (monthNames.getD i "")).map lowerB = [lowerB b1, lowerB b2, lowerB b3]
  ).map (· + 1)

def expectByte (b : Nat) : List Nat → Option (List Nat)
  | c :: rest => if c = b then some rest else none
  | [] => none

/-- `getnum` with `fixed = true`: exactly two digits. -/
def get2 : List Nat → Option (Nat × List Nat)
  | a :: b :: rest =>
    if isDigitB a ∧ isDigitB b then some ((a - 48) * 10 + (b - 48), rest) else none
  | _ => none

/-- `getnum` with `fixed = false`: one digit, or two when a second follows. -/
def get1or2 : List Nat → Option (Nat × List Nat)
  | [] => none
  | [a] => if isDigitB a then some (a - 48, []) else none
  | a :: b :: rest =>
    if isDigitB a then
      if isDigitB b then some ((a - 48) * 10 + (b - 48), rest)
      else some (a - 48, b :: rest)
    else none

/-- `getnum4`-style fixed four-digit year for the `2006` layout element. -/
def get4 : List Nat → Option (Nat × List Nat)
  | a :: b :: c :: d :: rest =>
    if isDigitB a ∧ isDigitB b ∧ isDigitB c ∧ isDigitB d then
      some (((a - 48) * 10 + (b - 48)) * 100 + (c - 48) * 10 + (d - 48), rest)
    else none
  | _ => none

/-- The `_2` layout element: an optional leading space, then one or two
digits. -/
def getUnderDay (bs : List Nat) : Option (Nat × List Nat) :=
  match bs with
  | 32 :: rest => get1or2 rest
  | _ => get1or2 bs

/-- The `.000000` layout element: a dot and exactly six fraction digits,
scaled to nanoseconds. -/
def get6frac : List Nat → Option (Nat × List Nat)
  | 46 :: d1 :: d2 :: d3 :: d4 :: d5 :: d6 :: rest =>
    if isDigitB d1 ∧ isDigitB d2 ∧ isDigitB d3 ∧ isDigitB d4 ∧ isDigitB d5 ∧ isDigitB d6 then
      some (digitsVal [d1, d2, d3, d4, d5, d6] * 1000, rest)
    else none
  | _ => none

/-- The `.999999` layout element: an optional fraction — consumed only when
a dot and a digit follow — of at most nine digits, scaled to nanoseconds. -/
def fracSecond9 (bs : List Nat) : Option (Nat × List Nat) :=
  match bs with
  | 46 :: d :: rest =>
    if isDigitB d then
      let ds := (d :: rest).takeWhile isDigitB
      if ds.length ≤ 9 then
        some (digitsVal ds * 10 ^ (9 - ds.length), (d :: rest).dropWhile isDigitB)
      else none
    else some (0, bs)
  | _ => some (0, bs)

def isLeap (y : Int) : Bool := y % 4 = 0 ∧ (y % 100 ≠ 0 ∨ y % 400 = 0)

def daysIn (y : Int) (m : Nat) : Nat :=
  if m = 2 then (if isLeap y then 29 else 28)
  else if m = 4 ∨ m = 6 ∨ m = 9 ∨ m = 11 then 30
  else 31

/-- The clock part of both layouts: `15:04:05` — a one-or-two-digit hour and
fixed two-digit minute and second — followed by the fraction element. -/
def parseClock (frac : List Nat → Option (Nat × List Nat)) (bs : List Nat) :
    Option (Nat × Nat × Nat × Nat × List Nat) :=
  match get1or2 bs with
  | none => none
  | some (hh, r1) =>
    match expectByte 58 r1 with
    | none => none
    | some r2 =>
      match get2 r2 with
      | none => none
      | some (mi, r3) =>
        match expectByte 58 r3 with
        | none => none
        | some r4 =>
          match get2 r4 with
          | none => none
          | some (ss, r5) =>
            match frac r5 with
            | none => none
            | some (ns, r6) => some (hh, mi, ss, ns, r6)

/-- `time.Parse(time.StampMicro, s)`: layout `Jan _2 15:04:05.000000`
(year 0), with the range checks `time.Parse` applies. -/
def parseStampMicro (bs : List Nat) : Option GoTime :=
  match bs with
  | b1 :: b2 :: b3 :: 32 :: rest =>
    match monthIdx3 b1 b2 b3 with
    | none => none
    | some m =>
      match getUnderDay rest with
      | none => none
      | some (day, r1) =>
        match expectByte 32 r1 with
        | none => none
        | some r2 =>
          match parseClock get6frac r2 with
          | none => none
          | some (hh, mi, ss, ns, r3) =>
            if r3 = [] ∧ hh < 24 ∧ mi < 60 ∧ ss < 60 ∧ 1 ≤ day ∧ day ≤ daysIn 0 m then
              some ⟨0, m, day, hh, mi, ss, ns⟩
            else none
  | _ => none

/-- `time.Parse("2006-01-02T15:04:05.999999", s)`, with the range checks
`time.Parse` applies. -/
def parseISO (bs : List Nat) : Option GoTime :=
  match get4 bs with
  | none => none
  | some (yr, r1) =>
    match expectByte 45 r1 with
    | none => none
    | some r2 =>
      match get2 r2 with
      | none => none
      | some (mo, r3) =>
        match expectByte 45 r3 with
        | none => none
        | some r4 =>
          match get2 r4 with
          | none => none
          | some (day, r5) =>
            match expectByte 84 r5 with
            | none => none
            | some r6 =>
              match parseClock fracSecond9 r6 with
              | none => none
              | some (hh, mi, ss, ns, r7) =>
                if r7 = [] ∧ 1 ≤ mo ∧ mo ≤ 12 ∧ hh < 24 ∧ mi < 60 ∧ ss < 60 ∧
                    1 ≤ day ∧ day ≤ daysIn (yr : Int) mo then
                  some ⟨yr, mo, day, hh, mi, ss, ns⟩
                else none

/-- The middle of a byte string with the first and last byte removed — what
the slice `s[1:len(s)-1]` leaves. -/
def stripEnds (b : List Nat) : List Nat := (b.drop 1).take (b.length - 2)

/-- Embedding of `Time.UnmarshalJSON` (src/unnamed/part_001:67-82): strip the
first and last byte with the unguarded slice `s[1:len(s)-1]` — a runtime
panic when the input is shorter than two bytes — then try the StampMicro
layout and, when it fails, the `2006-01-02T15:04:05.999999` layout, surfacing
the second error if both fail. -/
def Time.unmarshalJSON (b : List Nat) : GoResult GoTime :=
  if b.length < 2 then .crash
  else
    match parseStampMicro (stripEnds b) with
    | some t => .ok t
    | none =>
      match parseISO (stripEnds b) with
      | some t => .ok t
      | none => .err "parsing time: cannot parse"

end V1

/-! ## The older type file (src/unnamed/part_000): int-backed enums with
lookup tables -/

namespace V0

/-- Go map lookup with the zero value of the element type as default. -/
def lookupD [BEq α] (tbl : List (α × β)) (k : α) (d : β) : β :=
  ((tbl.find? fun p => p.1 == k).map fun p => p.2).getD d

/-- `OrderType` (src/unnamed/part_000:36-43); `Buy = iota = 0` is the zero
value. -/
inductive OrderType where
  | Buy
  | Sell
deriving DecidableEq, Fintype

def orderTypesID : List (OrderType × String) := [(.Buy, "buy"), (.Sell, "sell")]

def orderTypesName : List (String × OrderType) := [("buy", .Buy), ("sell", .Sell)]

/-- `Market` (src/unnamed/part_000:170-187); `ETHARS = iota = 0` is the zero
value. -/
inductive Market where
  | ETHARS
  | ETHEUR
  | ETHBRL
  | XLMARS
  | XLMEUR
  | XLMBRL
  | BTCARS
  | BTCEUR
  | BTCBRL
  | ETHCLP
  | XLMCLP
  | BTCCLP
deriving DecidableEq, Fintype

def marketsID : List (Market × String) :=
  [(.ETHARS, "ETHARS"), (.ETHEUR, "ETHEUR"), (.ETHBRL, "ETHBRL"),
   (.XLMARS, "XLMARS"), (.XLMEUR, "XLMEUR"), (.XLMBRL, "XLMBRL"),
   (.BTCARS, "BTCARS"), (.BTCEUR, "BTCEUR"), (.BTCBRL, "BTCBRL"),
   (.ETHCLP, "ETHCLP"), (.XLMCLP, "XLMCLP"), (.BTCCLP, "BTCCLP")]

def marketsName : List (String × Market) :=
  [("ETHARS", .ETHARS), ("ETHEUR", .ETHEUR), ("ETHBRL", .ETHBRL),
   ("XLMARS", .XLMARS), ("XLMEUR", .XLMEUR), ("XLMBRL", .XLMBRL),
   ("BTCARS", .BTCARS), ("BTCEUR", .BTCEUR), ("BTCBRL", .BTCBRL),
   ("ETHCLP", .ETHCLP), ("XLMCLP", .XLMCLP), ("BTCCLP", .BTCCLP)]

/-- `WalletType` (src/unnamed/part_000:87-96); `ARS = iota = 0` is the zero
value. -/
inductive WalletType where
  | ARS
  | BRL
  | CPL
  | EUR
  | ETH
  | XLM
  | BTC
deriving DecidableEq, Fintype

def walletTypesID : List (WalletType × String) :=
  [(.ARS, "ARS"), (.BRL, "BRL"), (.CPL, "CPL"), (.EUR, "EUR"),
   (.ETH, "ETH"), (.XLM, "XLM"), (.BTC, "BTC")]

def walletTypesName : List (String × WalletType) :=
  [("ARS", .ARS), ("BRL", .BRL), ("CPL", .CPL), ("EUR", .EUR),
   ("ETH", .ETH), ("XLM", .XLM), ("BTC", .BTC)]

/-- `OrderType.MarshalJSON` (src/unnamed/part_000:59-65): the wire string in
quotes. -/
def OrderType.marshalJSON (ot : OrderType) : List Nat :=
  strBytes ("\"" ++ lookupD orderTypesID ot "" ++ "\"")

/-- `OrderType.UnmarshalJSON` (src/unnamed/part_000:67-78): unmarshal as a
string, then look the value up; a missing key yields the map's zero value. -/
def OrderType.unmarshalJSON (b : List Nat) : Except String OrderType :=
  match unmarshalString b with
  | .error e => .error e
  | .ok s => .ok (lookupD orderTypesName s .Buy)

/-- `Market.MarshalJSON` (src/unnamed/part_000:223-229). -/
def Market.marshalJSON (m : Market) : List Nat :=
  strBytes ("\"" ++ lookupD marketsID m "" ++ "\"")

/-- `Market.UnmarshalJSON` (src/unnamed/part_000:231-242). -/
def Market.unmarshalJSON (b : List Nat) : Except String Market :=
  match unmarshalString b with
  | .error e => .error e
  | .ok s => .ok (lookupD marketsName s .ETHARS)

/-- `WalletType.MarshalJSON` (src/unnamed/part_000:118-124). -/
def WalletType.marshalJSON (wt : WalletType) : List Nat :=
  strBytes ("\"" ++ lookupD walletTypesID wt "" ++ "\"")

/-- `WalletType.UnmarshalJSON` (src/unnamed/part_000:126-137). -/
def WalletType.unmarshalJSON (b : List Nat) : Except String WalletType :=
  match unmarshalString b with
  | .error e => .error e
  | .ok s => .ok (lookupD walletTypesName s .ARS)

end V0

/-! ## Derived notions the statements use -/

/-- A JSON-quoted string literal, as bytes: `"` ++ s ++ `"`. -/
def jsonQuote (s : String) : List Nat := strBytes ("\"" ++ s ++ "\"")

/-- Bytes that pass through a JSON string unchanged: printable ASCII other
than the quote and the backslash. -/
def simpleByte (b : Nat) : Prop := 32 ≤ b ∧ b < 128 ∧ b ≠ 34 ∧ b ≠ 92

instance (b : Nat) : Decidable (simpleByte b) := by
  unfold simpleByte; infer_instance

/-- A string whose characters pass through a JSON string unchanged. -/
def SimpleStr (s : String) : Prop := ∀ c ∈ s.data, simpleByte c.toNat

instance (s : String) : Decidable (SimpleStr s) := by
  unfold SimpleStr; infer_instance

/-- The string a byte list spells in ASCII. -/
def asciiOf (bs : List Nat) : String := String.mk (bs.map Char.ofNat)

namespace V1

/-- The signature header attached to a header list. -/
def sigOf (hs : List (String × String)) : Option String :=
  headerGet hs "X-MKT-SIGNATURE"

/-- The base string both signatures are computed over:
`<timestamp>/<version><path>` with `version = "v1/"`. -/
def signedMsg (ts : Int) (path : String) : List Nat :=
  strBytes (toString ts ++ "/" ++ version ++ path)

/-- The multiset of form values a `url.Values` holds. -/
def valsMulti (vs : Values) : Multiset String :=
  ((vs.flatMap fun kv => kv.2) : List String)

/-- A transport whose first two `Do` calls fail and whose later calls return
a 200 response. -/
def failTwiceT : Transport := fun n =>
  if n < 2 then .fail "connection refused"
  else .resp { statusCode := 200, body := strBytes "success-body" }

end V1

/-! ## Helper lemmas -/

theorem strBytes_append (a b : String) :
    strBytes (a ++ b) = strBytes a ++ strBytes b := by
  simp [strBytes]

theorem foldl_append_inner (l : List String) (acc : List Nat) :
    l.foldl (fun a v => a ++ strBytes v) acc = acc ++ (l.map strBytes).flatten := by
  induction l generalizing acc with
  | nil => simp
  | cons x xs ih => simp [ih, List.append_assoc]

theorem foldl_append_outer (vs : Values) (acc : List Nat) :
    vs.foldl (fun acc kv => kv.2.foldl (fun a v => a ++ strBytes v) acc) acc
      = acc ++ V1.concatVals vs := by
  induction vs generalizing acc with
  | nil => simp [V1.concatVals]
  | cons kv rest ih =>
    rw [List.foldl_cons, foldl_append_inner, ih]
    simp [V1.concatVals, List.append_assoc]

theorem sig_formHeaders_post (c : V1.Client) (path : String) (ts : Int) (vs : Values) :
    V1.sigOf (V1.formHeaders c [] path (some vs) ts)
      = some (hexStr (hmacSha384 (strBytes c.secret)
          (V1.signedMsg ts path ++ V1.concatVals vs))) := by
  simp [V1.sigOf, V1.headerGet, V1.formHeaders, V1.signedMsg,
        foldl_append_outer, strBytes_append, List.append_assoc]

theorem sig_formHeaders_get (c : V1.Client) (path : String) (ts : Int) :
    V1.sigOf (V1.formHeaders c [] path none ts)
      = some (hexStr (hmacSha384 (strBytes c.secret) (V1.signedMsg ts path))) := by
  simp [V1.sigOf, V1.headerGet, V1.formHeaders, V1.signedMsg,
        strBytes_append, List.append_assoc]

/-! ## C1 — transport attempts -/

/-- C1 (amended): every API call (GET or POST) performs exactly one HTTP
attempt — there is no retry loop and no inter-attempt delay in `get`/`post`.
When the base URL parses, the call hands the request to the transport once
and returns that single attempt's outcome unchanged, transport errors and
non-success statuses alike; a URL parse failure is returned with no attempt
made. -/
theorem single_attempt_C1 (c : V1.Client) (path : String)
    (params data : List (String × String)) (auth : Bool) (ts : Int) (t : V1.Transport)
    (h : V1.parseOK (V1.apiURL ++ V1.version ++ path) = true) :
    ((c.get path params auth ts t).attempts = 1
      ∧ (c.get path params auth ts t).result = .ok (t 0))
  ∧ ((c.post path data ts t).attempts = 1
      ∧ (c.post path data ts t).result = .ok (t 0)) := by
  constructor
  · unfold V1.Client.get V1.formURL
    rw [if_pos h]
    exact ⟨rfl, rfl⟩
  · unfold V1.Client.post V1.formURL
    rw [if_pos h]
    exact ⟨rfl, rfl⟩

/-- Witness for `single_attempt_C1`: the `market` endpoint with a transport
that is always down. -/
theorem single_attempt_C1_w :
    V1.parseOK (V1.apiURL ++ V1.version ++ "market") = true
  ∧ ((((⟨"key", "secret"⟩ : V1.Client).get "market" [] false 0
        (fun _ => V1.DoResult.fail "down")).attempts = 1
      ∧ ((⟨"key", "secret"⟩ : V1.Client).get "market" [] false 0
          (fun _ => V1.DoResult.fail "down")).result = .ok (.fail "down"))
    ∧ (((⟨"key", "secret"⟩ : V1.Client).post "market" [] 0
          (fun _ => V1.DoResult.fail "down")).attempts = 1
      ∧ ((⟨"key", "secret"⟩ : V1.Client).post "market" [] 0
          (fun _ => V1.DoResult.fail "down")).result = .ok (.fail "down"))) :=
  ⟨by decide, single_attempt_C1 ⟨"key", "secret"⟩ "market" [] [] false 0
    (fun _ => V1.DoResult.fail "down") (by decide)⟩

/-- C1 as stated is false of the code: against a transport that fails twice
and then answers 200, `get` neither pauses nor returns the success body —
it returns the first attempt's transport error after exactly one `Do` call,
not five. -/
theorem retry_cex_C1 :
    ((⟨"key", "secret"⟩ : V1.Client).get "market" [] false 0 V1.failTwiceT).attempts = 1
  ∧ ¬ ((⟨"key", "secret"⟩ : V1.Client).get "market" [] false 0 V1.failTwiceT).attempts = 5
  ∧ ((⟨"key", "secret"⟩ : V1.Client).get "market" [] false 0 V1.failTwiceT).result
      = .ok (.fail "connection refused")
  ∧ ¬ ((⟨"key", "secret"⟩ : V1.Client).get "market" [] false 0 V1.failTwiceT).result
      = .ok (.resp { statusCode := 200, body := strBytes "success-body" }) := by
  decide

/-! ## C2 — the signature scheme -/

/-- C2: for every secret, path, timestamp and form-value collection the
attached `X-MKT-SIGNATURE` is the lowercase-hex HMAC-SHA384, keyed by the
secret, of `<timestamp>/<version><path>` followed by the concatenation of
all form field values for POST, and of the bare `<timestamp>/<version><path>`
for GET — including authenticated GETs, which sign no body contribution. -/
theorem signature_scheme_C2 (c : V1.Client) (path : String) (ts : Int) (vs : Values)
    (params data : List (String × String)) (t : V1.Transport)
    (h : V1.parseOK (V1.apiURL ++ V1.version ++ path) = true) :
    V1.sigOf (V1.formHeaders c [] path (some vs) ts)
      = some (hexStr (hmacSha384 (strBytes c.secret)
          (V1.signedMsg ts path ++ V1.concatVals vs)))
  ∧ V1.sigOf (V1.formHeaders c [] path none ts)
      = some (hexStr (hmacSha384 (strBytes c.secret) (V1.signedMsg ts path)))
  ∧ ((c.post path data ts t).sent.map fun r => V1.sigOf r.headers)
      = some (some (hexStr (hmacSha384 (strBytes c.secret)
          (V1.signedMsg ts path ++ V1.concatVals (buildValues data)))))
  ∧ ((c.get path params true ts t).sent.map fun r => V1.sigOf r.headers)
      = some (some (hexStr (hmacSha384 (strBytes c.secret) (V1.signedMsg ts path)))) := by
  refine ⟨sig_formHeaders_post c path ts vs, sig_formHeaders_get c path ts, ?_, ?_⟩
  · unfold V1.Client.post V1.formURL
    rw [if_pos h]
    simp [sig_formHeaders_post]
  · unfold V1.Client.get V1.formURL
    rw [if_pos h]
    simp [sig_formHeaders_get]

/-- Witness for `signature_scheme_C2`: the authenticated `balance` path with
a one-entry form. -/
theorem signature_scheme_C2_w :
    V1.parseOK (V1.apiURL ++ V1.version ++ "balance") = true
  ∧ (V1.sigOf (V1.formHeaders ⟨"key", "secret"⟩ [] "balance" (some [("amount", ["1.0000"])]) 0)
      = some (hexStr (hmacSha384 (strBytes "secret")
          (V1.signedMsg 0 "balance" ++ V1.concatVals [("amount", ["1.0000"])])))
    ∧ V1.sigOf (V1.formHeaders ⟨"key", "secret"⟩ [] "balance" none 0)
      = some (hexStr (hmacSha384 (strBytes "secret") (V1.signedMsg 0 "balance")))
    ∧ (((⟨"key", "secret"⟩ : V1.Client).post "balance" [("id", "42")] 0
          (fun _ => V1.DoResult.fail "down")).sent.map fun r => V1.sigOf r.headers)
      = some (some (hexStr (hmacSha384 (strBytes "secret")
          (V1.signedMsg 0 "balance" ++ V1.concatVals (buildValues [("id", "42")])))))
    ∧ (((⟨"key", "secret"⟩ : V1.Client).get "balance" [] true 0
          (fun _ => V1.DoResult.fail "down")).sent.map fun r => V1.sigOf r.headers)
      = some (some (hexStr (hmacSha384 (strBytes "secret") (V1.signedMsg 0 "balance"))))) :=
  ⟨by decide, signature_scheme_C2 ⟨"key", "secret"⟩ "balance" 0 [("amount", ["1.0000"])] []
    [("id", "42")] (fun _ => V1.DoResult.fail "down") (by decide)⟩

/-! ## C3 — determinism of signing -/

theorem flat_addValue_perm (vs : Values) (k v : String) :
    ((addValue vs k v).flatMap fun kv => kv.2).Perm
      (v :: vs.flatMap fun kv => kv.2) := by
  induction vs with
  | nil => simp [addValue]
  | cons kv rest ih =>
    by_cases h : kv.1 = k
    · simp only [addValue, if_pos h, List.flatMap_cons, List.append_assoc,
                 List.singleton_append]
      exact List.perm_middle
    · simp only [addValue, if_neg h, List.flatMap_cons]
      exact (ih.append_left kv.2).trans List.perm_middle

theorem valsMulti_addValue (vs : Values) (k v : String) :
    V1.valsMulti (addValue vs k v) = v ::ₘ V1.valsMulti vs := by
  unfold V1.valsMulti
  exact (Multiset.coe_eq_coe.mpr (flat_addValue_perm vs k v)).trans
    (Multiset.cons_coe v _).symm

theorem valsMulti_buildFold (adds : List (String × String)) :
    ∀ vs : Values,
      V1.valsMulti (adds.foldl (fun vs kv => addValue vs kv.1 kv.2) vs)
        = V1.valsMulti vs + ↑(adds.map fun kv => kv.2) := by
  induction adds with
  | nil => intro vs; simp
  | cons a rest ih =>
    intro vs
    rw [List.foldl_cons, ih, valsMulti_addValue]
    rw [List.map_cons, ← Multiset.cons_coe, Multiset.add_cons, Multiset.cons_add]

/-- C3 (amended): signing is deterministic as a function of the form's
iteration sequence — for every secret, path and timestamp, two forms whose
iteration orders concatenate the same value string get the same signature —
and the multiset of values concatenated into the signed message does not
depend on the order in which the form fields were added. The signature is,
however, not a function of the form as an unordered map: the iteration order
of a Go map is unspecified, and different admissible orders of the same map
can produce different signatures (see the counterexample). -/
theorem signing_deterministic_C3 :
    (∀ (c : V1.Client) (path : String) (ts : Int) (vs vs' : Values),
        V1.concatVals vs = V1.concatVals vs' →
        V1.sigOf (V1.formHeaders c [] path (some vs) ts)
          = V1.sigOf (V1.formHeaders c [] path (some vs') ts))
  ∧ (∀ adds adds' : List (String × String), adds.Perm adds' →
        V1.valsMulti (buildValues adds) = V1.valsMulti (buildValues adds')) := by
  constructor
  · intro c path ts vs vs' h
    rw [sig_formHeaders_post, sig_formHeaders_post, h]
  · intro adds adds' h
    unfold buildValues
    rw [valsMulti_buildFold adds [], valsMulti_buildFold adds' []]
    exact congrArg _ (Multiset.coe_eq_coe.mpr (h.map fun kv => kv.2))

/-- Witness for `signing_deterministic_C3`: equal value sequences under
different keys, and a two-field form built in both orders. -/
theorem signing_deterministic_C3_w :
    (V1.concatVals [("a", ["1"])] = V1.concatVals [("b", ["1"])]
      ∧ V1.sigOf (V1.formHeaders ⟨"key", "secret"⟩ [] "orders/create"
            (some [("a", ["1"])]) 0)
          = V1.sigOf (V1.formHeaders ⟨"key", "secret"⟩ [] "orders/create"
            (some [("b", ["1"])]) 0))
  ∧ (([("amount", "1"), ("price", "2")] : List (String × String)).Perm
        [("price", "2"), ("amount", "1")]
      ∧ V1.valsMulti (buildValues [("amount", "1"), ("price", "2")])
          = V1.valsMulti (buildValues [("price", "2"), ("amount", "1")])) :=
  ⟨⟨by decide, signing_deterministic_C3.1 ⟨"key", "secret"⟩ "orders/create" 0
      [("a", ["1"])] [("b", ["1"])] (by decide)⟩,
   ⟨by decide, signing_deterministic_C3.2 [("amount", "1"), ("price", "2")]
      [("price", "2"), ("amount", "1")] (by decide)⟩⟩

/-! ## C4 — FlexInt cursor decoding -/

theorem toNat_ofNat_small (b : Nat) (h : b < 128) : (Char.ofNat b).toNat = b := by
  have hv : Nat.isValidChar b := Or.inl (by omega)
  rw [Char.ofNat, dif_pos hv]
  simp [Char.ofNatAux, Char.toNat]
  rfl

theorem utf8Enc_small (b : Nat) (h : b < 128) : utf8Enc (Char.ofNat b) = [b] := by
  simp [utf8Enc, toNat_ofNat_small b h, h]

theorem utf8Enc_char_small (c : Char) (h : c.toNat < 128) : utf8Enc c = [c.toNat] := by
  simp [utf8Enc, h]

theorem strBytes_ascii (bs : List Nat) (h : ∀ b ∈ bs, b < 128) :
    strBytes (asciiOf bs) = bs := by
  show (bs.map Char.ofNat).flatMap utf8Enc = bs
  induction bs with
  | nil => rfl
  | cons b rest ih =>
    rw [List.map_cons, List.flatMap_cons, utf8Enc_small b (h b (List.mem_cons_self b rest)),
        ih fun x hx => h x (List.mem_cons_of_mem b hx)]
    rfl

theorem flatMap_utf8_ascii (l : List Char) (h : ∀ c ∈ l, c.toNat < 128) :
    l.flatMap utf8Enc = l.map Char.toNat := by
  induction l with
  | nil => rfl
  | cons c rest ih =>
    rw [List.flatMap_cons, List.map_cons,
        utf8Enc_char_small c (h c (List.mem_cons_self c rest)),
        ih fun x hx => h x (List.mem_cons_of_mem c hx)]
    rfl

theorem strBytes_chars (s : String) (h : ∀ c ∈ s.data, c.toNat < 128) :
    strBytes s = s.data.map Char.toNat :=
  flatMap_utf8_ascii s.data h

theorem jsonQuote_eq (s : String) : jsonQuote s = 34 :: (strBytes s ++ [34]) := by
  unfold jsonQuote
  rw [strBytes_append, strBytes_append]
  rfl

theorem jstrBody_plain (bs : List Nat) (h : ∀ b ∈ bs, simpleByte b) :
    jstrBody (bs ++ [34]) = some (bs.map Char.ofNat, []) := by
  induction bs with
  | nil => rfl
  | cons b rest ih =>
    obtain ⟨h1, h2, h3, h4⟩ := h b (List.mem_cons_self b rest)
    rw [List.cons_append]
    show jstrBody (b :: (rest ++ [34])) = _
    unfold jstrBody
    rw [if_neg h3, if_neg h4, if_pos ⟨h1, h2⟩,
        ih fun x hx => h x (List.mem_cons_of_mem b hx)]
    rfl

theorem unmarshalString_plain (s : String) (h : SimpleStr s) :
    unmarshalString (jsonQuote s) = .ok s := by
  have hlt : ∀ c ∈ s.data, c.toNat < 128 := fun c hc => (h c hc).2.1
  have hb : ∀ b ∈ s.data.map Char.toNat, simpleByte b := by
    intro b hb
    obtain ⟨c, hc, rfl⟩ := List.mem_map.mp hb
    exact h c hc
  rw [jsonQuote_eq, strBytes_chars s hlt]
  show (if (34 : Nat) = 34 then
      match jstrBody (s.data.map Char.toNat ++ [34]) with
      | some (cs, []) => Except.ok (String.mk cs)
      | some (_, _ :: _) => Except.error "invalid character after top-level value"
      | none => Except.error "invalid string literal"
    else Except.error "cannot unmarshal value into string") = Except.ok s
  rw [if_pos rfl, jstrBody_plain _ hb]
  show Except.ok (String.mk ((s.data.map Char.toNat).map Char.ofNat)) = _
  rw [List.map_map]
  have : s.data.map (Char.ofNat ∘ Char.toNat) = s.data :=
    List.map_congr_left (fun c _ => Char.ofNat_toNat c) |>.trans (List.map_id s.data)
  rw [this]

theorem digit_byte_bounds {b : Nat} (h : isDigitB b = true) : 48 ≤ b ∧ b ≤ 57 := by
  simp [isDigitB] at h
  exact h

theorem Atoi_digits (ds : List Nat) (h1 : ds ≠ []) (h2 : ∀ b ∈ ds, isDigitB b)
    (h3 : (digitsVal ds : Int) ≤ 2 ^ 63 - 1) :
    Atoi (asciiOf ds) = .ok (digitsVal ds) := by
  unfold Atoi
  rw [strBytes_ascii ds fun b hb => by have := digit_byte_bounds (h2 b hb); omega]
  cases ds with
  | nil => exact absurd rfl h1
  | cons d rest =>
    have hd := digit_byte_bounds (h2 d (List.mem_cons_self d rest))
    have h45 : ¬ d = 45 := by omega
    have h43 : ¬ (True ∧ d = 43) := fun hh => by omega
    simp only [splitSign]
    rw [if_neg h45, if_neg h43]
    have hv : (if ((false, d :: rest) : Bool × List Nat).1 = true
        then -(digitsVal ((false, d :: rest) : Bool × List Nat).2 : Int)
        else (digitsVal ((false, d :: rest) : Bool × List Nat).2 : Int))
        = (digitsVal (d :: rest) : Int) := rfl
    rw [hv, if_pos (⟨List.cons_ne_nil d rest, h2⟩ :
          ((false, d :: rest) : Bool × List Nat).2 ≠ []
        ∧ ∀ b ∈ ((false, d :: rest) : Bool × List Nat).2, isDigitB b = true)]
    rw [if_pos ⟨by omega, h3⟩]

theorem flexint_cons (old : Int) (b0 : Nat) (rest : List Nat) :
    V1.FlexInt.unmarshalJSON old (b0 :: rest)
      = if b0 ≠ 34 then
          match unmarshalInt old (b0 :: rest) with
          | .error e => .err e
          | .ok v => .ok v
        else
          match unmarshalString (b0 :: rest) with
          | .error e => .err e
          | .ok s =>
            match Atoi s with
            | .error _ => .ok old
            | .ok i => .ok i := rfl

theorem flexint_string (old : Int) (s : String) (h : SimpleStr s) :
    V1.FlexInt.unmarshalJSON old (jsonQuote s)
      = match Atoi s with
        | .error _ => .ok old
        | .ok i => .ok i := by
  rw [jsonQuote_eq, flexint_cons, if_neg (by simp), ← jsonQuote_eq,
      unmarshalString_plain s h]

theorem not_null_of_digits (d : Nat) (rest : List Nat)
    (h2 : ∀ b ∈ d :: rest, isDigitB b) : ¬ (d :: rest = strBytes "null") := by
  have hnb : strBytes "null" = [110, 117, 108, 108] := rfl
  rw [hnb]
  intro heq
  injection heq with hd htl
  have := h2 d (List.mem_cons_self d rest)
  rw [hd] at this
  simp [isDigitB] at this

theorem unmarshalInt_digits (old : Int) (d : Nat) (rest : List Nat)
    (h2 : ∀ b ∈ d :: rest, isDigitB b)
    (h0 : (d :: rest).head? = some 48 → d :: rest = [48])
    (h3 : (digitsVal (d :: rest) : Int) ≤ 2 ^ 63 - 1) :
    unmarshalInt old (d :: rest) = .ok (digitsVal (d :: rest)) := by
  have hd := digit_byte_bounds (h2 d (List.mem_cons_self d rest))
  unfold unmarshalInt
  rw [if_neg (not_null_of_digits d rest h2)]
  have h45 : ¬ d = 45 := by omega
  have h43 : ¬ ((false = true) ∧ d = 43) := fun hh => by simp at hh
  simp only [splitSign]
  rw [if_neg h45, if_neg h43]
  have hv : (if ((false, d :: rest) : Bool × List Nat).1 = true
      then -(digitsVal ((false, d :: rest) : Bool × List Nat).2 : Int)
      else (digitsVal ((false, d :: rest) : Bool × List Nat).2 : Int))
      = (digitsVal (d :: rest) : Int) := rfl
  rw [hv, if_pos (⟨List.cons_ne_nil d rest, h2, h0⟩ :
        ((false, d :: rest) : Bool × List Nat).2 ≠ []
      ∧ (∀ b ∈ ((false, d :: rest) : Bool × List Nat).2, isDigitB b = true)
      ∧ (((false, d :: rest) : Bool × List Nat).2.head? = some 48
          → ((false, d :: rest) : Bool × List Nat).2 = [48]))]
  rw [if_pos ⟨by omega, h3⟩]

theorem unmarshalInt_neg_digits (old : Int) (d : Nat) (rest : List Nat)
    (h2 : ∀ b ∈ d :: rest, isDigitB b)
    (h0 : (d :: rest).head? = some 48 → d :: rest = [48])
    (h3 : (digitsVal (d :: rest) : Int) ≤ 2 ^ 63) :
    unmarshalInt old (45 :: d :: rest) = .ok (-(digitsVal (d :: rest))) := by
  have hd := digit_byte_bounds (h2 d (List.mem_cons_self d rest))
  unfold unmarshalInt
  have hnull : ¬ (45 :: d :: rest = strBytes "null") := by
    have hnb : strBytes "null" = [110, 117, 108, 108] := rfl
    rw [hnb]
    intro heq
    injection heq with h45 _
    omega
  rw [if_neg hnull]
  simp only [splitSign]
  rw [if_pos trivial]
  have hv : (if ((true, d :: rest) : Bool × List Nat).1 = true
      then -(digitsVal ((true, d :: rest) : Bool × List Nat).2 : Int)
      else (digitsVal ((true, d :: rest) : Bool × List Nat).2 : Int))
      = -(digitsVal (d :: rest) : Int) := rfl
  rw [hv, if_pos (⟨List.cons_ne_nil d rest, h2, h0⟩ :
        ((true, d :: rest) : Bool × List Nat).2 ≠ []
      ∧ (∀ b ∈ ((true, d :: rest) : Bool × List Nat).2, isDigitB b = true)
      ∧ (((true, d :: rest) : Bool × List Nat).2.head? = some 48
          → ((true, d :: rest) : Bool × List Nat).2 = [48]))]
  rw [if_pos ⟨by omega, by omega⟩]

theorem simple_of_digits (d : Nat) (rest : List Nat)
    (h2 : ∀ b ∈ d :: rest, isDigitB b) : SimpleStr (asciiOf (d :: rest)) := by
  intro c hc
  have hc' : c ∈ (d :: rest).map Char.ofNat := hc
  obtain ⟨b, hb, rfl⟩ := List.mem_map.mp hc'
  have := digit_byte_bounds (h2 b hb)
  rw [toNat_ofNat_small b (by omega)]
  exact ⟨by omega, by omega, by omega, by omega⟩

/-- C4 (amended): a pagination cursor decoded from JSON `15`, `"15"` and
`"null"` yields 15, 15 and 0, none of them an error; in general a bare
integer (optionally negative) and a numeric string both normalize to the
integer provided it fits in a signed 64-bit int, and a string cursor whose
text does not parse as a 64-bit int — unparsable or out of range — yields
the receiver's zero value instead of an error. -/
theorem flexint_cursor_C4 :
    V1.FlexInt.unmarshalJSON 0 (strBytes "15") = .ok 15
  ∧ V1.FlexInt.unmarshalJSON 0 (strBytes "\"15\"") = .ok 15
  ∧ V1.FlexInt.unmarshalJSON 0 (strBytes "\"null\"") = .ok 0
  ∧ (∀ (old : Int) (d : Nat) (rest : List Nat), (∀ b ∈ d :: rest, isDigitB b) →
      ((d :: rest).head? = some 48 → d :: rest = [48]) →
      (digitsVal (d :: rest) : Int) ≤ 2 ^ 63 - 1 →
      V1.FlexInt.unmarshalJSON old (d :: rest) = .ok (digitsVal (d :: rest)))
  ∧ (∀ (old : Int) (d : Nat) (rest : List Nat), (∀ b ∈ d :: rest, isDigitB b) →
      ((d :: rest).head? = some 48 → d :: rest = [48]) →
      (digitsVal (d :: rest) : Int) ≤ 2 ^ 63 →
      V1.FlexInt.unmarshalJSON old (45 :: d :: rest) = .ok (-(digitsVal (d :: rest))))
  ∧ (∀ (old : Int) (d : Nat) (rest : List Nat), (∀ b ∈ d :: rest, isDigitB b) →
      (digitsVal (d :: rest) : Int) ≤ 2 ^ 63 - 1 →
      V1.FlexInt.unmarshalJSON old (jsonQuote (asciiOf (d :: rest)))
        = .ok (digitsVal (d :: rest)))
  ∧ (∀ s : String, SimpleStr s → (∀ v, ¬ Atoi s = .ok v) →
      V1.FlexInt.unmarshalJSON 0 (jsonQuote s) = .ok 0) := by
  refine ⟨by decide, by decide, by decide, ?_, ?_, ?_, ?_⟩
  · intro old d rest h2 h0 h3
    have hd := digit_byte_bounds (h2 d (List.mem_cons_self d rest))
    rw [flexint_cons, if_pos (show d ≠ 34 by omega),
        unmarshalInt_digits old d rest h2 h0 h3]
  · intro old d rest h2 h0 h3
    rw [flexint_cons, if_pos (show (45 : Nat) ≠ 34 by omega),
        unmarshalInt_neg_digits old d rest h2 h0 h3]
  · intro old d rest h2 h3
    rw [flexint_string old _ (simple_of_digits d rest h2),
        Atoi_digits (d :: rest) (List.cons_ne_nil d rest) h2 h3]
  · intro s hs hA
    rw [flexint_string 0 s hs]
    cases hAtoi : Atoi s with
    | error e => rfl
    | ok v => exact absurd hAtoi (hA v)

/-- Witness for `flexint_cursor_C4`: the digit string `15` bare, negated,
quoted, and the unparsable quoted cursor `"null"`. -/
theorem flexint_cursor_C4_w :
    V1.FlexInt.unmarshalJSON 7 [49, 53] = .ok 15
  ∧ V1.FlexInt.unmarshalJSON 7 [45, 49, 53] = .ok (-15)
  ∧ V1.FlexInt.unmarshalJSON 7 (jsonQuote (asciiOf [49, 53])) = .ok 15
  ∧ V1.FlexInt.unmarshalJSON 0 (jsonQuote "null") = .ok 0 :=
  ⟨flexint_cursor_C4.2.2.2.1 7 49 [53] (by decide) (by decide) (by decide),
   flexint_cursor_C4.2.2.2.2.1 7 49 [53] (by decide) (by decide) (by decide),
   flexint_cursor_C4.2.2.2.2.2.1 7 49 [53] (by decide) (by decide),
   flexint_cursor_C4.2.2.2.2.2.2 "null" (by decide) (fun v h => Except.noConfusion h)⟩

/-- C4 as stated is false of the code: the numeric string cursor
`"9223372036854775808"` (2^63, one past the signed 64-bit maximum) does not
normalize to its integer — `strconv.Atoi` overflows, `FlexInt.UnmarshalJSON`
swallows the error, and the zero value stands. -/
theorem flexint_range_cex_C4 :
    V1.FlexInt.unmarshalJSON 0 (strBytes "\"9223372036854775808\"") = .ok 0
  ∧ ¬ V1.FlexInt.unmarshalJSON 0 (strBytes "\"9223372036854775808\"")
      = .ok 9223372036854775808 := by decide

/-! ## C5 / C7 — enum decoding -/

theorem lookupD_not_mem {β : Type} (tbl : List (String × β)) (k : String) (d : β)
    (h : k ∉ tbl.map Prod.fst) : V0.lookupD tbl k d = d := by
  unfold V0.lookupD
  have hfind : tbl.find? (fun p => p.1 == k) = none := by
    apply List.find?_eq_none.mpr
    intro x hx hbeq
    exact h (List.mem_map.mpr ⟨x, hx, by simpa using hbeq⟩)
  rw [hfind]
  rfl

/-- C5: for each enum-like type (order side, market, wallet currency),
decoding a JSON string that is not one of the recognized wire strings
succeeds without error and silently yields the zero-value member (`Buy`,
`ETHARS`, `ARS` — the members with `iota` value 0), while every recognized
wire string decodes to its member via the exact-match lookup table. -/
theorem enum_zero_value_C5 :
    (∀ s : String, SimpleStr s → s ∉ V0.orderTypesName.map Prod.fst →
        V0.OrderType.unmarshalJSON (jsonQuote s) = .ok .Buy)
  ∧ (∀ p ∈ V0.orderTypesName, V0.OrderType.unmarshalJSON (jsonQuote p.1) = .ok p.2)
  ∧ (∀ s : String, SimpleStr s → s ∉ V0.marketsName.map Prod.fst →
        V0.Market.unmarshalJSON (jsonQuote s) = .ok .ETHARS)
  ∧ (∀ p ∈ V0.marketsName, V0.Market.unmarshalJSON (jsonQuote p.1) = .ok p.2)
  ∧ (∀ s : String, SimpleStr s → s ∉ V0.walletTypesName.map Prod.fst →
        V0.WalletType.unmarshalJSON (jsonQuote s) = .ok .ARS)
  ∧ (∀ p ∈ V0.walletTypesName, V0.WalletType.unmarshalJSON (jsonQuote p.1) = .ok p.2) := by
  refine ⟨?_, by decide, ?_, by decide, ?_, by decide⟩
  · intro s hs hmem
    unfold V0.OrderType.unmarshalJSON
    rw [unmarshalString_plain s hs]
    show Except.ok (V0.lookupD V0.orderTypesName s .Buy) = _
    rw [lookupD_not_mem _ _ _ hmem]
  · intro s hs hmem
    unfold V0.Market.unmarshalJSON
    rw [unmarshalString_plain s hs]
    show Except.ok (V0.lookupD V0.marketsName s .ETHARS) = _
    rw [lookupD_not_mem _ _ _ hmem]
  · intro s hs hmem
    unfold V0.WalletType.unmarshalJSON
    rw [unmarshalString_plain s hs]
    show Except.ok (V0.lookupD V0.walletTypesName s .ARS) = _
    rw [lookupD_not_mem _ _ _ hmem]

/-- Witness for `enum_zero_value_C5`: the unrecognized wire string `zzz`
against each table, and one recognized string of each. -/
theorem enum_zero_value_C5_w :
    V0.OrderType.unmarshalJSON (jsonQuote "zzz") = .ok .Buy
  ∧ V0.OrderType.unmarshalJSON (jsonQuote "sell") = .ok .Sell
  ∧ V0.Market.unmarshalJSON (jsonQuote "zzz") = .ok .ETHARS
  ∧ V0.Market.unmarshalJSON (jsonQuote "BTCCLP") = .ok .BTCCLP
  ∧ V0.WalletType.unmarshalJSON (jsonQuote "zzz") = .ok .ARS
  ∧ V0.WalletType.unmarshalJSON (jsonQuote "EUR") = .ok .EUR :=
  ⟨enum_zero_value_C5.1 "zzz" (by decide) (by decide),
   enum_zero_value_C5.2.1 ("sell", .Sell) (by decide),
   enum_zero_value_C5.2.2.1 "zzz" (by decide) (by decide),
   enum_zero_value_C5.2.2.2.1 ("BTCCLP", .BTCCLP) (by decide),
   enum_zero_value_C5.2.2.2.2.1 "zzz" (by decide) (by decide),
   enum_zero_value_C5.2.2.2.2.2 ("EUR", .EUR) (by decide)⟩

/-- C7: marshalling any defined member of the order-side, market and
wallet-currency enums to its wire string and unmarshalling that string
returns the original member. -/
theorem enum_roundtrip_C7 :
    (∀ ot : V0.OrderType,
        V0.OrderType.unmarshalJSON (V0.OrderType.marshalJSON ot) = .ok ot)
  ∧ (∀ m : V0.Market, V0.Market.unmarshalJSON (V0.Market.marshalJSON m) = .ok m)
  ∧ (∀ wt : V0.WalletType,
        V0.WalletType.unmarshalJSON (V0.WalletType.marshalJSON wt) = .ok wt) := by
  decide

/-! ## C6 — timestamp formats -/

/-- C6: a timestamp field tries exactly two textual layouts in a fixed
order — when StampMicro parses, its result is returned; otherwise the
`2006-01-02T15:04:05.999999` layout is tried — and the decode errors exactly
when neither layout matches; an input in either supported layout decodes
without error and a third, unsupported format yields the decode error. -/
theorem time_two_formats_C6 :
    (∀ b : List Nat, 2 ≤ b.length → ∀ t : V1.GoTime,
        V1.parseStampMicro (V1.stripEnds b) = some t → V1.Time.unmarshalJSON b = .ok t)
  ∧ (∀ b : List Nat, 2 ≤ b.length → V1.parseStampMicro (V1.stripEnds b) = none →
        ∀ t : V1.GoTime, V1.parseISO (V1.stripEnds b) = some t →
        V1.Time.unmarshalJSON b = .ok t)
  ∧ (∀ b : List Nat, 2 ≤ b.length → V1.parseStampMicro (V1.stripEnds b) = none →
        V1.parseISO (V1.stripEnds b) = none →
        V1.Time.unmarshalJSON b = .err "parsing time: cannot parse")
  ∧ V1.Time.unmarshalJSON (strBytes "\"Jan  2 15:04:05.000001\"")
      = .ok ⟨0, 1, 2, 15, 4, 5, 1000⟩
  ∧ V1.Time.unmarshalJSON (strBytes "\"2019-07-01T22:15:30.5\"")
      = .ok ⟨2019, 7, 1, 22, 15, 30, 500000000⟩
  ∧ V1.Time.unmarshalJSON (strBytes "\"2019/07/01 22:15\"")
      = .err "parsing time: cannot parse" := by
  refine ⟨?_, ?_, ?_, by decide, by decide, by decide⟩
  · intro b hb t ht
    unfold V1.Time.unmarshalJSON
    rw [if_neg (by omega), ht]
  · intro b hb h1 t h2
    unfold V1.Time.unmarshalJSON
    rw [if_neg (by omega), h1, h2]
  · intro b hb h1 h2
    unfold V1.Time.unmarshalJSON
    rw [if_neg (by omega), h1, h2]

/-- Witness for `time_two_formats_C6`: one input per layout and one in
neither. -/
theorem time_two_formats_C6_w :
    V1.Time.unmarshalJSON (strBytes "\"Feb 29 23:59:59.999999\"")
      = .ok ⟨0, 2, 29, 23, 59, 59, 999999000⟩
  ∧ V1.Time.unmarshalJSON (strBytes "\"2020-02-29T10:20:30\"")
      = .ok ⟨2020, 2, 29, 10, 20, 30, 0⟩
  ∧ V1.Time.unmarshalJSON (strBytes "\"xx\"") = .err "parsing time: cannot parse" :=
  ⟨time_two_formats_C6.1 _ (by decide) _ (by decide),
   time_two_formats_C6.2.1 _ (by decide) (by decide) _ (by decide),
   time_two_formats_C6.2.2.1 _ (by decide) (by decide) (by decide)⟩

/-! ## C8 — unchecked indexing in the decoders -/

/-- C8: the custom decoders index into the raw input without a length check:
`FlexInt.UnmarshalJSON` reads `b[0]` and panics exactly on the empty input,
`Time.UnmarshalJSON` slices `s[1:len(s)-1]` and panics exactly on inputs
shorter than two bytes; on all longer inputs both are total, and on the
short inputs the panic strikes before any error branch can be taken. -/
theorem decoder_bounds_C8 :
    (∀ old : Int, V1.FlexInt.unmarshalJSON old [] = .crash)
  ∧ (∀ (old : Int) (b : List Nat), b ≠ [] → V1.FlexInt.unmarshalJSON old b ≠ .crash)
  ∧ (∀ b : List Nat, b.length < 2 → V1.Time.unmarshalJSON b = .crash)
  ∧ (∀ b : List Nat, 2 ≤ b.length → V1.Time.unmarshalJSON b ≠ .crash) := by
  refine ⟨fun old => rfl, ?_, ?_, ?_⟩
  · intro old b hb
    cases b with
    | nil => exact absurd rfl hb
    | cons b0 rest =>
      rw [flexint_cons]
      split
      · cases unmarshalInt old (b0 :: rest) <;> simp
      · cases unmarshalString (b0 :: rest) with
        | error e => simp
        | ok s => cases hA : Atoi s <;> simp [hA]
  · intro b hb
    unfold V1.Time.unmarshalJSON
    rw [if_pos hb]
  · intro b hb
    unfold V1.Time.unmarshalJSON
    rw [if_neg (by omega)]
    cases V1.parseStampMicro (V1.stripEnds b) with
    | some t => simp
    | none => cases V1.parseISO (V1.stripEnds b) <;> simp

/-- Witness for `decoder_bounds_C8`: a one-byte cursor input, a one-byte
time input, and a three-byte time input. -/
theorem decoder_bounds_C8_w :
    V1.FlexInt.unmarshalJSON 0 [53] ≠ .crash
  ∧ V1.Time.unmarshalJSON [34] = .crash
  ∧ V1.Time.unmarshalJSON (strBytes "\"x\"") ≠ .crash :=
  ⟨decoder_bounds_C8.2.1 0 [53] (by decide),
   decoder_bounds_C8.2.2.1 [34] (by decide),
   decoder_bounds_C8.2.2.2 (strBytes "\"x\"") (by decide)⟩

/-! ## C9 — the fixed page size -/

/-- C9: every paginated endpoint method — Book, Trades, ActiveOrders،
ExecutedOrders — sends the query parameter `limit=100` for every caller
input: each request URL is the base endpoint plus the encoded parameter
map, and that map's encoding always contains the component `limit=100`,
with no caller-supplied value in it. -/
theorem fixed_limit_C9 (c : V1.Client) (m ot start e : String) (page ts : Int)
    (t : V1.Transport) :
    (((c.Book m ot page ts t).sent.map fun r => r.url)
        = some (V1.apiURL ++ V1.version ++ "book" ++ "?" ++ encode (buildValues
            [("market", m), ("type", ot), ("page", toString page),
             ("limit", toString V1.limit)]))
      ∧ "limit=100" ∈ encodeParts (buildValues
            [("market", m), ("type", ot), ("page", toString page),
             ("limit", toString V1.limit)]))
  ∧ (((c.Trades m start e page ts t).sent.map fun r => r.url)
        = some (V1.apiURL ++ V1.version ++ "trades" ++ "?" ++ encode (buildValues
            [("market", m), ("start", start), ("end", e), ("page", toString page),
             ("limit", toString V1.limit)]))
      ∧ "limit=100" ∈ encodeParts (buildValues
            [("market", m), ("start", start), ("end", e), ("page", toString page),
             ("limit", toString V1.limit)]))
  ∧ (((c.ActiveOrders m page ts t).sent.map fun r => r.url)
        = some (V1.apiURL ++ V1.version ++ "orders/active" ++ "?" ++ encode (buildValues
            [("market", m), ("page", toString page), ("limit", toString V1.limit)]))
      ∧ "limit=100" ∈ encodeParts (buildValues
            [("market", m), ("page", toString page), ("limit", toString V1.limit)]))
  ∧ (((c.ExecutedOrders m page ts t).sent.map fun r => r.url)
        = some (V1.apiURL ++ V1.version ++ "orders/executed" ++ "?" ++ encode (buildValues
            [("market", m), ("page", toString page), ("limit", toString V1.limit)]))
      ∧ "limit=100" ∈ encodeParts (buildValues
            [("market", m), ("page", toString page), ("limit", toString V1.limit)])) :=
  ⟨⟨rfl, List.Mem.head _⟩, ⟨rfl, List.Mem.tail _ (List.Mem.head _)⟩,
   ⟨rfl, List.Mem.head _⟩, ⟨rfl, List.Mem.head _⟩⟩
set_option maxRecDepth 100000 in
set_option maxHeartbeats 2000000 in
/-- C3 as stated is false of the code: the form map with entries
`a : [1]` and `b : [2]` admits both iteration orders, `formHeaders` signs a
different byte string under each, and the attached signatures differ — so
two runs of the signer on the same (timestamp, path, form) triple need not
agree. -/
theorem signing_order_cex_C3 :
    V1.sigOf (V1.formHeaders ⟨"key", "secret"⟩ [] "orders/create"
        (some [("a", ["1"]), ("b", ["2"])]) 0)
  ≠ V1.sigOf (V1.formHeaders ⟨"key", "secret"⟩ [] "orders/create"
        (some [("b", ["2"]), ("a", ["1"])]) 0) := by
  decide
